import Mathlib

/-!
Verification of the model-registry and skeletal-animation subsystem of a
Quake3-derived Vulkan renderer (model loading/caching in tr_model, MDR
animation surfaces in tr_animation, and the IQM loader/evaluator in
tr_model_iqm.cpp).  Machine integers are modelled as Int/Nat with explicit
two's-complement wrapping where the C code can overflow; C float arithmetic
is modelled over the reals; fallible code returns Option or Bool.
-/

namespace Q3V

/-- Two's-complement wrap of a mathematical integer to a signed 32-bit int,
mirroring C int arithmetic overflow on the target platform. -/
def wrap32 (x : ℤ) : ℤ := (x + 2 ^ 31) % 2 ^ 32 - 2 ^ 31

/-- Bit pattern of a signed value reinterpreted as uint32_t (C conversion to
unsigned is reduction mod 2^32). -/
def u32n (x : ℤ) : ℕ := (x % 2 ^ 32).toNat

/-- Bit pattern of a signed value converted to size_t (64-bit unsigned). -/
def u64n (x : ℤ) : ℕ := (x % 2 ^ 64).toNat

/-! ## Model registry (tr_models: R_GetModelByHandle, R_AllocModel,
RE_RegisterModel) -/

/-- modtype_t from tr_model.hpp: the format tag stored in a model record. -/
inductive modtype where
  | MOD_BAD
  | MOD_MESH
  | MOD_MDR
  | MOD_IQM
deriving DecidableEq, Repr

/-- The three loader formats, in the preference order of the modelLoaders
table: iqm, then mdr, then md3. -/
inductive ModFormat where
  | iqm
  | mdr
  | md3
deriving DecidableEq, Repr

/-- The model type a successful loader records (R_RegisterIQM sets MOD_IQM,
R_RegisterMDR sets MOD_MDR, R_RegisterMD3 sets MOD_MESH). -/
def fmtModtype : ModFormat → modtype
  | .iqm => .MOD_IQM
  | .mdr => .MOD_MDR
  | .md3 => .MOD_MESH

/-- The slice of model_t that the registry operations read: the registered
name and the format tag.  Index in the table is the list position. -/
structure ModelRec where
  name : String
  mtype : modtype
deriving DecidableEq, Repr

/-- Default record used as the getD fallback (never reached on the paths the
theorems describe; tr.models[0] is the designated default model). -/
def defaultRec : ModelRec := ⟨"", modtype.MOD_BAD⟩

/-- R_GetModelByHandle: an out-of-range handle (index < 1 or
index >= tr.numModels) yields tr.models[0]; otherwise tr.models[index].
The registry state is the list of allocated records, index 0 first. -/
def R_GetModelByHandle (models : List ModelRec) (index : ℤ) : ModelRec :=
  if index < 1 ∨ (models.length : ℤ) ≤ index then
    models.getD 0 defaultRec
  else
    models.getD index.toNat defaultRec

/-- The name-lookup loop of RE_RegisterModel: scan handles 1..numModels-1 and
return the first whose stored name equals the requested name. -/
def findHandleAux (models : List ModelRec) (name : String) (i : ℕ) : Option ℕ :=
  match models with
  | [] => none
  | m :: rest => if m.name = name then some i else findHandleAux rest name (i + 1)

/-- Search the currently loaded models, starting at handle 1 as the source
loop does (index 0, the default model, is never matched). -/
def findHandle (models : List ModelRec) (name : String) : Option ℕ :=
  findHandleAux (models.drop 1) name 1

/-- Environment of RE_RegisterModel: the file system as seen through the
loaders (what format the named file successfully parses as, none when the
file is absent or corrupt), the string helpers from string_operations.hpp
(not under src/, kept abstract), and the compile-time table limits. -/
structure RegEnv where
  fs : String → Option ModFormat
  getExt : String → String
  stripExt : String → String
  striEq : String → String → Bool
  maxQPath : ℕ
  maxModKnown : ℕ

/-- One R_Register* loader invocation on a file name: it reads the file once
and succeeds exactly when the file parses as the loader's own format.
Result: (handle or 0, recorded modtype). -/
def loaderTry (fs : String → Option ModFormat) (fmt : ModFormat)
    (fname : String) (idx : ℤ) : ℤ × modtype :=
  if fs fname = some fmt then (idx, fmtModtype fmt) else (0, modtype.MOD_BAD)

/-- The fallback loop of RE_RegisterModel over the remaining loaders: for
each (ext, loader) pair form altName = localName.ext, invoke the loader, and
stop at the first success.  Returns (handle, modtype, file-read attempts,
successful decodes). -/
def tryAltLoaders (fs : String → Option ModFormat) (localName : String)
    (idx : ℤ) : List (String × ModFormat) → ℤ × modtype × ℕ × ℕ
  | [] => (0, modtype.MOD_BAD, 0, 0)
  | (ext, fmt) :: rest =>
    if fs (localName ++ "." ++ ext) = some fmt then
      (idx, fmtModtype fmt, 1, 1)
    else
      let r := tryAltLoaders fs localName idx rest
      (r.1, r.2.1, r.2.2.1 + 1, r.2.2.2)

/-- The matched-extension path of RE_RegisterModel: try the matching loader
on the full name; a zero handle (loader failed) strips the extension and
runs the fallback loop over the remaining loaders, counting the extra read;
a nonzero handle returns at once. -/
def extLoaderPath (fs : String → Option ModFormat) (fmt : ModFormat)
    (name stripped : String) (idx : ℤ)
    (rest : List (String × ModFormat)) : ℤ × modtype × ℕ × ℕ :=
  match loaderTry fs fmt name idx with
  | (0, _) =>
    let r := tryAltLoaders fs stripped idx rest
    (r.1, r.2.1, r.2.2.1 + 1, r.2.2.2)
  | (h, t) => (h, t, 1, 1)

/-- The "load the files" section of RE_RegisterModel, with the three-entry
modelLoaders loop unrolled in table order (iqm, mdr, md3): if the name's
extension matches a loader, that loader runs first and the fallback skips it
(extension stripped); an extension matching no loader, or an empty one,
sends the unmodified name through the fallback loop over all three.
Returns (handle, modtype, reads, decodes). -/
def loadModelAttempt (env : RegEnv) (name : String) (idx : ℤ) :
    ℤ × modtype × ℕ × ℕ :=
  let ext := env.getExt name
  if ext = "" then
    tryAltLoaders env.fs name idx
      [("iqm", ModFormat.iqm), ("mdr", ModFormat.mdr), ("md3", ModFormat.md3)]
  else if env.striEq ext "iqm" then
    extLoaderPath env.fs ModFormat.iqm name (env.stripExt name) idx
      [("mdr", ModFormat.mdr), ("md3", ModFormat.md3)]
  else if env.striEq ext "mdr" then
    extLoaderPath env.fs ModFormat.mdr name (env.stripExt name) idx
      [("iqm", ModFormat.iqm), ("md3", ModFormat.md3)]
  else if env.striEq ext "md3" then
    extLoaderPath env.fs ModFormat.md3 name (env.stripExt name) idx
      [("iqm", ModFormat.iqm), ("mdr", ModFormat.mdr)]
  else
    tryAltLoaders env.fs name idx
      [("iqm", ModFormat.iqm), ("mdr", ModFormat.mdr), ("md3", ModFormat.md3)]

/-- RE_RegisterModel.  State is the model table (list of records); the result
is (handle, new table, file-read attempts, successful decodes).  Early exits:
empty name, name of MAX_QPATH or longer, cache hit (a cached MOD_BAD entry
returns 0, a good entry returns its handle), and a full table.  Otherwise a
slot is appended: R_AllocModel assigns index numModels, the name is stored
before loading, and the final modtype is whatever the load attempt left. -/
def RE_RegisterModel (env : RegEnv) (st : List ModelRec) (name : String) :
    ℤ × List ModelRec × ℕ × ℕ :=
  if name = "" then (0, st, 0, 0)
  else if env.maxQPath ≤ name.length then (0, st, 0, 0)
  else
    match findHandle st name with
    | some h =>
      if (st.getD h defaultRec).mtype = modtype.MOD_BAD then (0, st, 0, 0)
      else ((h : ℤ), st, 0, 0)
    | none =>
      if env.maxModKnown ≤ st.length then (0, st, 0, 0)
      else
        let idx : ℤ := (st.length : ℤ)
        let r := loadModelAttempt env name idx
        (r.1, st ++ [⟨name, r.2.1⟩], r.2.2.1, r.2.2.2)

/-! ## Frame validation at surface submission (R_MDRAddAnimSurfaces in
tr_animation, R_AddIQMSurfaces in tr_model_iqm.cpp) -/

/-- The frame-validation comparison shared verbatim by R_MDRAddAnimSurfaces
and R_AddIQMSurfaces: if ent.e.frame or ent.e.oldframe is at or past the
numFrames value the caller read, or negative, both are set to 0; otherwise
both pass through unchanged.  Which value the caller compares against is the
caller's affair (see the two call-site wrappers below). -/
def validateEntityFrames (numFrames frame oldframe : ℤ) : ℤ × ℤ :=
  if numFrames ≤ frame ∨ frame < 0 ∨ numFrames ≤ oldframe ∨ oldframe < 0 then
    (0, 0)
  else
    (frame, oldframe)

/-- The mdrHeader_t fields R_MDRAddAnimSurfaces reads during frame
validation.  The function binds its header reference with
(mdrHeader_t &)tr.currentModel->modelData, a cast of the modelData pointer
member itself rather than of the object it points to, so this view is a
reinterpretation of the model record's bytes at that member -- an arbitrary
value unrelated to the model's MDR payload -- not the payload's header. -/
structure MDRHeaderView where
  numFrames : ℤ
deriving DecidableEq, Repr

/-- The frame-validation step of R_MDRAddAnimSurfaces: the comparison runs
against the numFrames of the type-punned header view described above; the
model's real frame count is not an input. -/
def R_MDRAddAnimSurfaces_validateFrames (punnedHeader : MDRHeaderView)
    (frame oldframe : ℤ) : ℤ × ℤ :=
  validateEntityFrames punnedHeader.numFrames frame oldframe

/-- The garbage header view used to exhibit the MDR frame-validation bug. -/
def mdrPunEx : MDRHeaderView := ⟨100⟩

/-! ## IQM loader checks (tr_model_iqm.cpp: IQM_CheckRange and the joint
table validation loop of R_LoadIQM) -/

/-- IQM_CheckRange, true when the (offset, count, size) range does NOT fit
the declared file size.  offset, count, size are C ints; count*size and
offset + count*size wrap as 32-bit signed products; the final comparison
converts offset to uint32_t, adds the (possibly wrapped) product with
unsigned arithmetic, and compares against the uint32_t filesize. -/
def IQM_CheckRange (filesize : ℕ) (offset count size : ℤ) : Bool :=
  count ≤ 0 ∨
  offset ≤ 0 ∨
  u32n offset > filesize ∨
  wrap32 (offset + wrap32 (count * size)) < 0 ∨
  (u32n offset + u64n (wrap32 (count * size))) % 2 ^ 32 > filesize

/-- The per-joint validation of R_LoadIQM: a joint (parent index, name
offset) is rejected when parent < -1, parent >= (int)num_joints, or
name >= num_text.  The loop over the joint table fails if any joint does. -/
def checkIQMJoints (numJoints : ℤ) (numText : ℕ)
    (joints : List (ℤ × ℕ)) : Bool :=
  joints.all fun j => !(j.1 < -1 ∨ numJoints ≤ j.1 ∨ numText ≤ j.2)

/-- The property claimed of accepted joint tables: every parent index is the
no-parent sentinel -1 or references an earlier-or-equal joint index. -/
def parentsOrderedClaim (joints : List (ℤ × ℕ)) : Prop :=
  ∀ i : Fin joints.length,
    (joints.get i).1 = -1 ∨ (joints.get i).1 ≤ ((i : ℕ) : ℤ)

instance (joints : List (ℤ × ℕ)) : Decidable (parentsOrderedClaim joints) := by
  unfold parentsOrderedClaim
  infer_instance

/-- Concrete two-joint table whose first joint names the second as parent:
joint 0 has parent 1, joint 1 has no parent. -/
def jointsEx : List (ℤ × ℕ) := [(1, 0), (-1, 0)]

/-! ## MD3 loader validation (tr_models: R_LoadMD3) -/

/-- MD3_VERSION from the MD3 on-disk format (qfiles.h, not under src/). -/
def MD3_VERSION : ℤ := 15

/-- sizeof(md3Frame_t): bounds (2 x vec3) + localOrigin + radius + name[16]. -/
def md3FrameBytes : ℕ := 56

/-- sizeof(md3Tag_t): name[64] + origin + 3 axes. -/
def md3TagBytes : ℕ := 112

/-- sizeof(md3Surface_t): ident + name[64] + 10 int fields. -/
def md3SurfaceBytes : ℕ := 108

/-- sizeof(md3Shader_t): name[64] + shaderIndex. -/
def md3ShaderBytes : ℕ := 68

/-- sizeof(md3St_t): two floats. -/
def md3StBytes : ℕ := 8

/-- sizeof(md3XyzNormal_t): four shorts. -/
def md3XyzBytes : ℕ := 8

/-- sizeof(md3Triangle_t): three ints. -/
def md3TriangleBytes : ℕ := 12

/-- The integer fields of one md3Surface_t that R_LoadMD3 validates (after
byte-swap).  The name, ident and shader fields are rewritten but never
bounds-checked, and are omitted. -/
structure MD3Surface where
  numFrames : ℤ
  numShaders : ℤ
  numVerts : ℤ
  numTriangles : ℤ
  ofsTriangles : ℤ
  ofsShaders : ℤ
  ofsSt : ℤ
  ofsXyzNormals : ℤ
  ofsEnd : ℤ
deriving DecidableEq, Repr

/-- The md3Header_t fields R_LoadMD3 validates, with the parsed surface
chain as a list (the walk visits hdr->numSurfaces surfaces, advancing the
surface pointer by each surface's ofsEnd). -/
structure MD3Header where
  version : ℤ
  numFrames : ℤ
  numTags : ℤ
  numSkins : ℤ
  ofsFrames : ℤ
  ofsTags : ℤ
  ofsSurfaces : ℤ
  ofsEnd : ℤ
  surfaces : List MD3Surface
deriving DecidableEq, Repr

/-- Per-surface validation loop of R_LoadMD3.  off is the byte offset of the
current surface from the header ((byte*)surf - (byte*)hdr).  The first check
transcribes the source line faithfully: the bool value
(ofsEnd > fileSize || off + ofsEnd != 0) is cast to size_t (0 or 1) and
compared against fileSize.  All offset/size sums are size_t arithmetic on
sign-extended ints; numShaders and numVerts ceiling checks are plain signed
comparisons, and numTriangles * 3 is a wrapping int product. -/
def loadMD3Surfs (maxVerts maxIndexes : ℤ) (fileSize : ℕ) :
    ℤ → List MD3Surface → Bool
  | _, [] => true
  | off, s :: rest =>
    if (if u64n s.ofsEnd > fileSize ∨ off + s.ofsEnd ≠ 0 then 1 else 0) >
        fileSize then false
    else if u64n s.ofsTriangles > fileSize ∨ u64n s.ofsShaders > fileSize ∨
        u64n s.ofsSt > fileSize ∨ u64n s.ofsXyzNormals > fileSize then false
    else if (u64n s.ofsTriangles + u64n s.numTriangles * md3TriangleBytes) %
        2 ^ 64 > fileSize then false
    else if (u64n s.ofsShaders + u64n s.numShaders * md3ShaderBytes) %
        2 ^ 64 > fileSize ∨ s.numShaders > 2 ^ 20 then false
    else if (u64n s.ofsSt + u64n s.numVerts * md3StBytes) % 2 ^ 64 >
        fileSize then false
    else if (u64n s.ofsXyzNormals + u64n s.numVerts * md3XyzBytes) % 2 ^ 64 >
        fileSize then false
    else if maxVerts ≤ s.numVerts then false
    else if maxIndexes ≤ wrap32 (s.numTriangles * 3) then false
    else loadMD3Surfs maxVerts maxIndexes fileSize (off + s.ofsEnd) rest

/-- R_LoadMD3's validation chain, parametric in the compile-time ceilings
SHADER_MAX_VERTEXES and SHADER_MAX_INDEXES (defined outside src/): version
check, declared-end-within-file check, frame count, header offsets within
the declared size (int compared against uint32_t), the corrupt-count mask
check (unsigned view of numFrames|numTags|numSkins against 1<<20), the three
block-extent checks, then the per-surface walk. -/
def R_LoadMD3 (maxVerts maxIndexes : ℤ) (fileSize : ℕ) (m : MD3Header) :
    Bool :=
  if m.version ≠ MD3_VERSION then false
  else
    let size := u32n m.ofsEnd
    if size > fileSize then false
    else if m.numFrames < 1 then false
    else if u32n m.ofsFrames > size ∨ u32n m.ofsTags > size ∨
        u32n m.ofsSurfaces > size then false
    else if ((u32n m.numFrames).lor ((u32n m.numTags).lor
        (u32n m.numSkins))) > 2 ^ 20 then false
    else if (u64n m.ofsFrames + u64n m.numFrames * md3FrameBytes) % 2 ^ 64 >
        fileSize then false
    else if (u64n m.ofsTags + u64n (wrap32 (m.numTags * m.numFrames)) *
        md3TagBytes) % 2 ^ 64 > fileSize then false
    else if (u64n m.ofsSurfaces +
        (if m.surfaces.length ≠ 0 then md3SurfaceBytes else 0)) % 2 ^ 64 >
        fileSize then false
    else loadMD3Surfs maxVerts maxIndexes fileSize m.ofsSurfaces m.surfaces

/-- A surface declaring 999 vertices with every other field valid for a
20000-byte file. -/
def md3SurfEx : MD3Surface where
  numFrames := 1
  numShaders := 0
  numVerts := 999
  numTriangles := 0
  ofsTriangles := 108
  ofsShaders := 108
  ofsSt := 108
  ofsXyzNormals := 8100
  ofsEnd := 16092

/-- A concrete MD3 header with md3SurfEx as its single surface, all other
fields valid for a 20000-byte file. -/
def md3Ex : MD3Header where
  version := 15
  numFrames := 1
  numTags := 0
  numSkins := 0
  ofsFrames := 100
  ofsTags := 100
  ofsSurfaces := 100
  ofsEnd := 20000
  surfaces := [md3SurfEx]

/-! ## Skeletal math (tr_model_iqm.cpp: Matrix34Multiply, QuatSlerp,
JointToMatrix, ComputePoseMats, ComputeJointMats, R_IQMLerpTag) and the tag
resolvers (tr_models: R_GetTag, R_GetAnimTag, R_LerpTag).  C float values
are modelled as real numbers, so this part of the development is
noncomputable. -/

noncomputable section

/-- A 3x4 matrix stored as the source's flat float[12], row-major: entry
m(4r+c) is row r, column c. -/
structure Mat34 where
  m0 : ℝ
  m1 : ℝ
  m2 : ℝ
  m3 : ℝ
  m4 : ℝ
  m5 : ℝ
  m6 : ℝ
  m7 : ℝ
  m8 : ℝ
  m9 : ℝ
  m10 : ℝ
  m11 : ℝ

/-- The all-zero 3x4 matrix, used as a concrete scratch-buffer content. -/
def zeroMat : Mat34 := ⟨0, 0, 0, 0, 0, 0, 0, 0, 0, 0, 0, 0⟩

/-- Matrix34Multiply: product of two 3x4 matrices viewed as 4x4 with last
row (0 0 0 1), transcribed entry by entry. -/
def Matrix34Multiply (a b : Mat34) : Mat34 where
  m0 := a.m0 * b.m0 + a.m1 * b.m4 + a.m2 * b.m8
  m1 := a.m0 * b.m1 + a.m1 * b.m5 + a.m2 * b.m9
  m2 := a.m0 * b.m2 + a.m1 * b.m6 + a.m2 * b.m10
  m3 := a.m0 * b.m3 + a.m1 * b.m7 + a.m2 * b.m11 + a.m3
  m4 := a.m4 * b.m0 + a.m5 * b.m4 + a.m6 * b.m8
  m5 := a.m4 * b.m1 + a.m5 * b.m5 + a.m6 * b.m9
  m6 := a.m4 * b.m2 + a.m5 * b.m6 + a.m6 * b.m10
  m7 := a.m4 * b.m3 + a.m5 * b.m7 + a.m6 * b.m11 + a.m7
  m8 := a.m8 * b.m0 + a.m9 * b.m4 + a.m10 * b.m8
  m9 := a.m8 * b.m1 + a.m9 * b.m5 + a.m10 * b.m9
  m10 := a.m8 * b.m2 + a.m9 * b.m6 + a.m10 * b.m10
  m11 := a.m8 * b.m3 + a.m9 * b.m7 + a.m10 * b.m11 + a.m11

/-- Quaternions as the source's float[4]: components x y z w at indices
0 1 2 3. -/
def Quat : Type := Fin 4 → ℝ

/-- The dot product the source computes inline in QuatSlerp. -/
def quatDot (a b : Quat) : ℝ := a 0 * b 0 + a 1 * b 1 + a 2 * b 2 + a 3 * b 3

/-- QuatSlerp: to is initialised to -_to and only overwritten with _to when
the dot product is nonnegative; a dot below the 0.999999 threshold (after
the sign flip) selects the spherical branch with angle acos(cos), otherwise
the linear branch; the output blends componentwise. -/
def QuatSlerp (fromQ toQarg : Quat) (fraction : ℝ) : Quat :=
  let cosAngle0 := quatDot fromQ toQarg
  let cosAngle := if cosAngle0 < 0 then -cosAngle0 else cosAngle0
  let toQ : Quat := if cosAngle0 < 0 then (fun i => -toQarg i) else toQarg
  let coeffs : ℝ × ℝ :=
    if cosAngle < 0.999999 then
      let angle := Real.arccos cosAngle
      let sinAngle := Real.sin angle
      (Real.sin ((1 - fraction) * angle) / sinAngle,
       Real.sin (fraction * angle) / sinAngle)
    else
      (1 - fraction, fraction)
  fun i => fromQ i * coeffs.1 + toQ i * coeffs.2

/-- JointToMatrix: 3x4 matrix from a rotation quaternion, per-axis scale and
translation, transcribed from the source. -/
def JointToMatrix (rot : Quat) (scale trans : Fin 3 → ℝ) : Mat34 :=
  let xx := 2 * rot 0 * rot 0
  let yy := 2 * rot 1 * rot 1
  let zz := 2 * rot 2 * rot 2
  let xy := 2 * rot 0 * rot 1
  let xz := 2 * rot 0 * rot 2
  let yz := 2 * rot 1 * rot 2
  let wx := 2 * rot 3 * rot 0
  let wy := 2 * rot 3 * rot 1
  let wz := 2 * rot 3 * rot 2
  { m0 := scale 0 * (1 - (yy + zz))
    m1 := scale 0 * (xy - wz)
    m2 := scale 0 * (xz + wy)
    m3 := trans 0
    m4 := scale 1 * (xy + wz)
    m5 := scale 1 * (1 - (xx + zz))
    m6 := scale 1 * (yz - wx)
    m7 := trans 1
    m8 := scale 2 * (xz - wy)
    m9 := scale 2 * (yz + wx)
    m10 := scale 2 * (1 - (xx + yy))
    m11 := trans 2 }

/-- iqmTransform_t: a relative per-joint transform. -/
structure iqmTransform where
  translate : Fin 3 → ℝ
  rotate : Quat
  scale : Fin 3 → ℝ

/-- The fields of iqmData_t used by the skeletal evaluator, the tag
resolver and the frame validation.  poses is the flat pose array indexed
frame * num_poses + joint (frames are C ints, so the index is an integer);
bindJoints and invBindJoints are the per-joint 3x4 matrices; jointNames
lists the NUL-separated joint names by joint number. -/
structure IQMData where
  num_joints : ℕ
  num_poses : ℕ
  num_frames : ℤ
  poses : ℤ → iqmTransform
  jointParents : ℕ → ℤ
  bindJoints : ℕ → Mat34
  invBindJoints : ℕ → Mat34
  jointNames : ℕ → String

/-- The frame-validation step of R_AddIQMSurfaces: here the payload is
reached correctly (static_cast of the modelData pointer value), so the
comparison runs against the model's own num_frames. -/
def R_AddIQMSurfaces_validateFrames (data : IQMData) (frame oldframe : ℤ) :
    ℤ × ℤ :=
  validateEntityFrames data.num_frames frame oldframe

/-- Stage one of ComputePoseMats: the relative joint transform for joint i,
either copied from the single frame when oldframe == frame, or blended
(linear translate/scale, QuatSlerp rotate with lerp = 1 - backlerp). -/
def relativeJoint (data : IQMData) (frame oldframe : ℤ) (backlerp : ℝ)
    (i : ℕ) : iqmTransform :=
  if oldframe = frame then
    data.poses (frame * data.num_poses + i)
  else
    let lerp := 1 - backlerp
    let pose := data.poses (frame * data.num_poses + i)
    let oldpose := data.poses (oldframe * data.num_poses + i)
    { translate := fun k => oldpose.translate k * backlerp + pose.translate k * lerp
      scale := fun k => oldpose.scale k * backlerp + pose.scale k * lerp
      rotate := QuatSlerp oldpose.rotate pose.rotate lerp }

/-- Stage two of ComputePoseMats for one joint: convert the relative
transform to a matrix; with a parent, pre-multiply the parent's bind matrix,
post-multiply the joint's inverse bind matrix, then pre-multiply the
parent's entry of the output buffer as it currently stands (the source
reads poseMats[parent * 12] from the same buffer it is filling); without a
parent, just post-multiply the inverse bind matrix.  The buffer entry i is
overwritten. -/
def poseMatsStep (data : IQMData) (rj : ℕ → iqmTransform)
    (buf : ℕ → Mat34) (i : ℕ) : ℕ → Mat34 :=
  let t := rj i
  let mat1 := JointToMatrix t.rotate t.scale t.translate
  let p := data.jointParents i
  let newMat :=
    if 0 ≤ p then
      let mat2 := Matrix34Multiply (data.bindJoints p.toNat) mat1
      let mat1b := Matrix34Multiply mat2 (data.invBindJoints i)
      Matrix34Multiply (buf p.toNat) mat1b
    else
      Matrix34Multiply mat1 (data.invBindJoints i)
  Function.update buf i newMat

/-- ComputePoseMats: one top-down pass writing pose matrices for joints
0..num_poses-1 into the caller's buffer, whose initial (uninitialised)
contents are the init parameter. -/
def ComputePoseMats (data : IQMData) (frame oldframe : ℤ) (backlerp : ℝ)
    (init : ℕ → Mat34) : ℕ → Mat34 :=
  (List.range data.num_poses).foldl
    (poseMatsStep data (relativeJoint data frame oldframe backlerp)) init

/-- ComputeJointMats: with zero poses the first num_joints entries of the
output buffer are copied from the bind matrices and the function returns;
otherwise ComputePoseMats runs and each of the first num_joints entries is
post-multiplied by its bind matrix in place. -/
def ComputeJointMats (data : IQMData) (frame oldframe : ℤ) (backlerp : ℝ)
    (init : ℕ → Mat34) : ℕ → Mat34 :=
  if data.num_poses = 0 then
    fun i => if i < data.num_joints then data.bindJoints i else init i
  else
    let pm := ComputePoseMats data frame oldframe backlerp init
    fun i =>
      if i < data.num_joints then Matrix34Multiply (pm i) (data.bindJoints i)
      else pm i

/-- orientation_t: an origin and three axis vectors. -/
structure Orientation where
  origin : Fin 3 → ℝ
  axis : Fin 3 → Fin 3 → ℝ

/-- Modelled from the spec: AxisClear and VectorClear (math library, not
under src/) produce the cleared/identity failure frame: zero origin and
identity axes. -/
def clearedOrientation : Orientation where
  origin := ![0, 0, 0]
  axis := ![![1, 0, 0], ![0, 1, 0], ![0, 0, 1]]

/-- Modelled from the spec: VectorNormalize (math library, not under src/)
scales a vector by the reciprocal of its Euclidean length, leaving the zero
vector unchanged. -/
def VectorNormalize (v : Fin 3 → ℝ) : Fin 3 → ℝ :=
  let len := Real.sqrt (v 0 * v 0 + v 1 * v 1 + v 2 * v 2)
  if len = 0 then v else fun i => v i / len

/-- The joint-name scan of R_IQMLerpTag: index of the first joint whose name
matches, if any. -/
def findJoint (data : IQMData) (tagName : String) : Option ℕ :=
  (List.range data.num_joints).find? fun j => data.jointNames j = tagName

/-- R_IQMLerpTag: an unmatched name clears the orientation and reports
failure; otherwise the joint matrices for (startFrame, endFrame, frac) are
computed into the caller's (uninitialised) stack buffer and the named
joint's matrix is unpacked, columns as axes and fourth column as origin. -/
def R_IQMLerpTag (data : IQMData) (scratch : ℕ → Mat34)
    (startFrame endFrame : ℤ) (frac : ℝ) (tagName : String) :
    Orientation × Bool :=
  match findJoint data tagName with
  | none => (clearedOrientation, false)
  | some joint =>
    let jm := ComputeJointMats data startFrame endFrame frac scratch
    let m := jm joint
    ({ origin := ![m.m3, m.m7, m.m11]
       axis := ![![m.m0, m.m4, m.m8], ![m.m1, m.m5, m.m9],
                 ![m.m2, m.m6, m.m10]] }, true)

/-- The md3Tag_t fields used by the tag resolvers. -/
structure MD3Tag where
  name : String
  origin : Fin 3 → ℝ
  axis : Fin 3 → Fin 3 → ℝ

/-- The slice of an MD3 model R_GetTag reads: the frame count and the flat
tag array, indexed frame * numTags + tagslot over raw memory (the source
performs no negative-frame or bounds check beyond the upper clamp). -/
structure MD3Model where
  numFrames : ℤ
  numTags : ℕ
  tags : ℤ → MD3Tag

/-- R_GetTag: clamp the frame to the last frame when at or past numFrames,
then scan that frame's numTags tag block for an exact name match. -/
def R_GetTag (mod : MD3Model) (frame : ℤ) (tagName : String) :
    Option MD3Tag :=
  let f := if mod.numFrames ≤ frame then mod.numFrames - 1 else frame
  (List.range mod.numTags).findSome? fun i =>
    let tag := mod.tags (f * mod.numTags + i)
    if tag.name = tagName then some tag else none

/-- mdrTag_t: a named reference to a bone index. -/
structure MDRTag where
  name : String
  boneIndex : ℤ

/-- The slice of an MDR model R_GetAnimTag reads: frame count, the tag
list, and the per-frame bone matrices (bones f b is frame f's bone b). -/
structure MDRModel where
  numFrames : ℤ
  numTags : ℕ
  tags : ℕ → MDRTag
  bones : ℤ → ℤ → Mat34

/-- R_GetAnimTag: clamp the frame to the last frame when at or past
numFrames, scan the tag list for an exact name match, and on a match read
the named bone's matrix at that single frame, transposing the rotation rows
into axes and taking the fourth column as origin. -/
def R_GetAnimTag (mod : MDRModel) (framenum : ℤ) (tagName : String) :
    Option MD3Tag :=
  let f := if mod.numFrames ≤ framenum then mod.numFrames - 1 else framenum
  (List.range mod.numTags).findSome? fun i =>
    let tag := mod.tags i
    if tag.name = tagName then
      let m := mod.bones f tag.boneIndex
      some { name := tag.name
             origin := ![m.m3, m.m7, m.m11]
             axis := ![![m.m0, m.m4, m.m8], ![m.m1, m.m5, m.m9],
                       ![m.m2, m.m6, m.m10]] }
    else none

/-- The model payload dispatch of R_LerpTag: an MD3 payload (md3[0] set),
an MDR payload, an IQM payload, or anything else. -/
inductive RModel where
  | md3 (m : MD3Model)
  | mdr (m : MDRModel)
  | iqm (d : IQMData)
  | bad

/-- The interpolation block at the end of R_LerpTag: blend origin and the
three axis rows between the start and end tags with backLerp = 1 - frac and
frontLerp = frac, then normalize each axis vector. -/
def lerpTagBlend (s e : MD3Tag) (frac : ℝ) : Orientation where
  origin := fun i => s.origin i * (1 - frac) + e.origin i * frac
  axis := fun j => VectorNormalize fun i => s.axis j i * (1 - frac) + e.axis j i * frac

/-- R_LerpTag: MD3 models resolve the tag at both frames with R_GetTag, MDR
models with R_GetAnimTag at startFrame and endFrame (both through a correct
pointer cast of modelData), and any other model yields no tags; a missing
start or end tag clears the orientation and reports failure, otherwise the
two tags are blended.  The IQM branch, however, delegates to R_IQMLerpTag
with reinterpret_cast of the modelData pointer member itself to an
iqmData_t reference, so what R_IQMLerpTag scans is a reinterpretation of
the model record's bytes -- the punnedIQM argument, an arbitrary value
unrelated to the model's IQM payload, which the branch ignores. -/
def R_LerpTag (mdl : RModel) (punnedIQM : IQMData) (scratch : ℕ → Mat34)
    (startFrame endFrame : ℤ) (frac : ℝ) (tagName : String) :
    Orientation × Bool :=
  match mdl with
  | .iqm _ => R_IQMLerpTag punnedIQM scratch startFrame endFrame frac tagName
  | .md3 m =>
    match R_GetTag m startFrame tagName, R_GetTag m endFrame tagName with
    | some s, some e => (lerpTagBlend s e frac, true)
    | _, _ => (clearedOrientation, false)
  | .mdr m =>
    match R_GetAnimTag m startFrame tagName, R_GetAnimTag m endFrame tagName with
    | some s, some e => (lerpTagBlend s e frac, true)
    | _, _ => (clearedOrientation, false)
  | .bad => (clearedOrientation, false)

/-- The tag name is absent from the data the R_LerpTag scan actually reads:
the model's tag records for MD3/MDR (for MD3 the quantifier ranges over the
whole tag memory, covering any clamped frame the scan could start at), and
for IQM the joint names of the type-punned iqmData_t view that the call
passes in place of the payload. -/
def tagAbsent : RModel → IQMData → String → Prop
  | .md3 m, _, t => ∀ j : ℤ, (m.tags j).name ≠ t
  | .mdr m, _, t => ∀ i : ℕ, (m.tags i).name ≠ t
  | .iqm _, pun, t => ∀ j : ℕ, pun.jointNames j ≠ t
  | .bad, _, _ => True

/-! ## Concrete models used to instantiate the theorems -/

/-- A quaternion of squared norm 1/4. -/
def qHalf : Quat := ![1 / 2, 0, 0, 0]

/-- The unit quaternion (0, 0, 0, 1). -/
def unitQuatW : Quat := ![0, 0, 0, 1]

/-- The identity 3x4 bone matrix (identity rotation, zero origin). -/
def idRotA : Mat34 := ⟨1, 0, 0, 0, 0, 1, 0, 0, 0, 0, 1, 0⟩

/-- Identity rotation with origin translated to (2, 0, 0). -/
def matShift2 : Mat34 := ⟨1, 0, 0, 2, 0, 1, 0, 0, 0, 0, 1, 0⟩

/-- A two-frame MDR model with one tag on bone 0, whose bone matrix has
origin (0,0,0) at frame 0 and (2,0,0) at frame 1. -/
def mdrEx : MDRModel where
  numFrames := 2
  numTags := 1
  tags := fun _ => ⟨"tag_flash", 0⟩
  bones := fun f _ => if f = 0 then idRotA else matShift2

/-- The tag R_GetAnimTag resolves from mdrEx at frame 0. -/
def tagAEx : MD3Tag where
  name := "tag_flash"
  origin := ![0, 0, 0]
  axis := ![![1, 0, 0], ![0, 1, 0], ![0, 0, 1]]

/-- The tag R_GetAnimTag resolves from mdrEx at frame 1. -/
def tagBEx : MD3Tag where
  name := "tag_flash"
  origin := ![2, 0, 0]
  axis := ![![1, 0, 0], ![0, 1, 0], ![0, 0, 1]]

/-- A one-frame MD3 model whose single tag slot is named tag_head
everywhere. -/
def md3ModEx : MD3Model where
  numFrames := 1
  numTags := 1
  tags := fun _ => ⟨"tag_head", ![0, 0, 0], ![![1, 0, 0], ![0, 1, 0], ![0, 0, 1]]⟩

/-- An IQM payload with one joint named root and zero poses. -/
def iqmEx0 : IQMData where
  num_joints := 1
  num_poses := 0
  num_frames := 0
  poses := fun _ => ⟨![0, 0, 0], ![0, 0, 0, 1], ![1, 1, 1]⟩
  jointParents := fun _ => -1
  bindJoints := fun _ => matShift2
  invBindJoints := fun _ => idRotA
  jointNames := fun _ => "root"

/-- An IQM payload with five frames, used at the (correct) IQM frame
validation site. -/
def iqmEx5 : IQMData where
  num_joints := 1
  num_poses := 1
  num_frames := 5
  poses := fun _ => ⟨![0, 0, 0], ![0, 0, 0, 1], ![1, 1, 1]⟩
  jointParents := fun _ => -1
  bindJoints := fun _ => matShift2
  invBindJoints := fun _ => idRotA
  jointNames := fun _ => "root"

/-- One possible content of the type-punned iqmData_t view: a jointless
value, under which the garbage scan happens to find nothing. -/
def punEmptyEx : IQMData where
  num_joints := 0
  num_poses := 0
  num_frames := 0
  poses := fun _ => ⟨![0, 0, 0], ![0, 0, 0, 1], ![1, 1, 1]⟩
  jointParents := fun _ => -1
  bindJoints := fun _ => idRotA
  invBindJoints := fun _ => idRotA
  jointNames := fun _ => ""

/-- Another possible content of the type-punned iqmData_t view: one whose
garbage joint table happens to contain a joint named nope. -/
def punNopeEx : IQMData where
  num_joints := 1
  num_poses := 0
  num_frames := 0
  poses := fun _ => ⟨![0, 0, 0], ![0, 0, 0, 1], ![1, 1, 1]⟩
  jointParents := fun _ => -1
  bindJoints := fun _ => matShift2
  invBindJoints := fun _ => idRotA
  jointNames := fun _ => "nope"

end

/-- A registry environment whose file system only parses mymodel.md3 (as an
MD3), with trivial string helpers: no extension is ever reported, so
registration goes straight to the fallback loop. -/
def regEnvEx : RegEnv where
  fs := fun n => if n = "mymodel.md3" then some ModFormat.md3 else none
  getExt := fun _ => ""
  stripExt := fun s => s
  striEq := fun a b => a == b
  maxQPath := 64
  maxModKnown := 1024

/-- An initial registry holding only the default model at index 0. -/
def st0Ex : List ModelRec := [⟨"base0", modtype.MOD_BAD⟩]

end Q3V

namespace Q3V

/-! ## Supporting lemmas -/

theorem tryAltLoaders_spec (fs : String → Option ModFormat)
    (localName : String) (idx : ℤ) (l : List (String × ModFormat)) :
    ((tryAltLoaders fs localName idx l).1 = idx ∧
      (tryAltLoaders fs localName idx l).2.1 ≠ modtype.MOD_BAD ∧
      (tryAltLoaders fs localName idx l).2.2.2 = 1) ∨
    ((tryAltLoaders fs localName idx l).1 = 0 ∧
      (tryAltLoaders fs localName idx l).2.1 = modtype.MOD_BAD ∧
      (tryAltLoaders fs localName idx l).2.2.2 = 0) := by
  induction l with
  | nil => right; exact ⟨rfl, rfl, rfl⟩
  | cons a t ih =>
    obtain ⟨ext, fmt⟩ := a
    by_cases h : fs (localName ++ "." ++ ext) = some fmt
    · left
      refine ⟨by simp [tryAltLoaders, h], ?_, by simp [tryAltLoaders, h]⟩
      simp only [tryAltLoaders, if_pos h]
      cases fmt <;> simp [fmtModtype]
    · simp only [tryAltLoaders, if_neg h]
      exact ih

theorem extLoaderPath_spec (fs : String → Option ModFormat) (fmt : ModFormat)
    (name stripped : String) (idx : ℤ) (rest : List (String × ModFormat)) :
    ((extLoaderPath fs fmt name stripped idx rest).1 = idx ∧
      (extLoaderPath fs fmt name stripped idx rest).2.1 ≠ modtype.MOD_BAD ∧
      (extLoaderPath fs fmt name stripped idx rest).2.2.2 = 1) ∨
    ((extLoaderPath fs fmt name stripped idx rest).1 = 0 ∧
      (extLoaderPath fs fmt name stripped idx rest).2.1 = modtype.MOD_BAD ∧
      (extLoaderPath fs fmt name stripped idx rest).2.2.2 = 0) := by
  unfold extLoaderPath loaderTry
  by_cases h : fs name = some fmt
  · rw [if_pos h]
    by_cases h0 : idx = 0
    · subst h0
      rcases tryAltLoaders_spec fs stripped 0 rest with ⟨h1, h2, h3⟩ | ⟨h1, h2, h3⟩
      · left; exact ⟨h1, h2, h3⟩
      · right; exact ⟨h1, h2, h3⟩
    · left
      have hm : (match ((idx, fmtModtype fmt) : ℤ × modtype) with
          | (0, _) =>
            let r := tryAltLoaders fs stripped idx rest
            (r.1, r.2.1, r.2.2.1 + 1, r.2.2.2)
          | (h, t) => (h, t, 1, 1)) = (idx, fmtModtype fmt, 1, 1) := by
        rcases idx with n | n
        · cases n with
          | zero => exact absurd rfl h0
          | succ k => rfl
        · rfl
      rw [hm]
      exact ⟨rfl, by cases fmt <;> simp [fmtModtype], rfl⟩
  · rw [if_neg h]
    rcases tryAltLoaders_spec fs stripped idx rest with ⟨h1, h2, h3⟩ | ⟨h1, h2, h3⟩
    · left; exact ⟨h1, h2, h3⟩
    · right; exact ⟨h1, h2, h3⟩

theorem loadModelAttempt_spec (env : RegEnv) (name : String) (idx : ℤ) :
    ((loadModelAttempt env name idx).1 = idx ∧
      (loadModelAttempt env name idx).2.1 ≠ modtype.MOD_BAD ∧
      (loadModelAttempt env name idx).2.2.2 = 1) ∨
    ((loadModelAttempt env name idx).1 = 0 ∧
      (loadModelAttempt env name idx).2.1 = modtype.MOD_BAD ∧
      (loadModelAttempt env name idx).2.2.2 = 0) := by
  unfold loadModelAttempt
  dsimp only
  split_ifs
  all_goals first
    | exact tryAltLoaders_spec env.fs name idx _
    | exact extLoaderPath_spec env.fs _ name (env.stripExt name) idx _

theorem findHandleAux_append_none (name : String) (r : ModelRec) :
    ∀ (xs : List ModelRec) (i : ℕ), findHandleAux xs name i = none →
      findHandleAux (xs ++ [r]) name i =
        if r.name = name then some (i + xs.length) else none := by
  intro xs
  induction xs with
  | nil => intro i _; simp [findHandleAux]
  | cons a t ih =>
    intro i h
    by_cases ha : a.name = name
    · exact absurd h (by simp [findHandleAux, ha])
    · have h' : findHandleAux t name (i + 1) = none := by
        simpa [findHandleAux, ha] using h
      have step : findHandleAux ((a :: t) ++ [r]) name i =
          findHandleAux (t ++ [r]) name (i + 1) := by
        simp [findHandleAux, ha]
      rw [step, ih (i + 1) h']
      by_cases hr : r.name = name
      · rw [if_pos hr, if_pos hr]
        congr 1
        simp
        omega
      · rw [if_neg hr, if_neg hr]

theorem findHandle_append (st : List ModelRec) (r : ModelRec) (name : String)
    (hne : st ≠ []) (h : findHandle st name = none) (hr : r.name = name) :
    findHandle (st ++ [r]) name = some st.length := by
  cases st with
  | nil => exact absurd rfl hne
  | cons a t =>
    unfold findHandle at h ⊢
    simp only [List.cons_append, List.drop_succ_cons, List.drop_zero] at h ⊢
    rw [findHandleAux_append_none name r t 1 h, if_pos hr]
    congr 1
    simp
    omega

theorem getD_append_self (xs : List ModelRec) (r : ModelRec) :
    (xs ++ [r]).getD xs.length defaultRec = r := by
  induction xs with
  | nil => rfl
  | cons a t ih => simp [List.getD]

/-! ## Claim theorems -/

/-- C8: R_GetModelByHandle never faults: any handle resolves to a record in
the table; a zero, negative or out-of-range handle resolves to the default
record at index 0, and an in-range handle (1 <= h < numModels) resolves to
the record registered at that index. -/
theorem C8_getModelByHandle (models : List ModelRec) (index : ℤ)
    (h : models ≠ []) :
    R_GetModelByHandle models index ∈ models ∧
    ((index < 1 ∨ (models.length : ℤ) ≤ index) →
      R_GetModelByHandle models index = models.getD 0 defaultRec) ∧
    (1 ≤ index → index < (models.length : ℤ) →
      R_GetModelByHandle models index = models.getD index.toNat defaultRec) := by
  refine ⟨?_, ?_, ?_⟩
  · unfold R_GetModelByHandle
    split
    · cases models with
      | nil => exact absurd rfl h
      | cons a t => simp [List.getD]
    · rename_i hc
      push_neg at hc
      have hlt : index.toNat < models.length := by omega
      rw [List.getD_eq_getElem?_getD, List.getElem?_eq_getElem hlt]
      simp [List.getElem_mem]
  · intro hout
    unfold R_GetModelByHandle
    rw [if_pos hout]
  · intro h1 h2
    unfold R_GetModelByHandle
    rw [if_neg]
    push_neg
    exact ⟨h1, h2⟩

/-- C8 witness: handle 5 is out of range of the one-entry table and yields
the record at index 0; the theorem applies at that concrete input. -/
theorem C8_getModelByHandle_witness :
    R_GetModelByHandle st0Ex 5 ∈ st0Ex ∧
    (((5 : ℤ) < 1 ∨ (st0Ex.length : ℤ) ≤ 5) →
      R_GetModelByHandle st0Ex 5 = st0Ex.getD 0 defaultRec) ∧
    ((1 : ℤ) ≤ 5 → (5 : ℤ) < (st0Ex.length : ℤ) →
      R_GetModelByHandle st0Ex 5 = st0Ex.getD (5 : ℤ).toNat defaultRec) :=
  C8_getModelByHandle st0Ex 5 (by decide)

/-- The validation comparison itself is sound for whatever numFrames value
it is fed: with a bound of at least one, both outputs land in [0, bound),
and any out-of-range input resets both to 0 rather than clamping or
rejecting.  Whether the bound is the model's frame count depends on the
call site. -/
theorem validateEntityFrames_bounds (numFrames frame oldframe : ℤ)
    (h : 1 ≤ numFrames) :
    (0 ≤ (validateEntityFrames numFrames frame oldframe).1 ∧
      (validateEntityFrames numFrames frame oldframe).1 < numFrames ∧
      0 ≤ (validateEntityFrames numFrames frame oldframe).2 ∧
      (validateEntityFrames numFrames frame oldframe).2 < numFrames) ∧
    ((frame < 0 ∨ numFrames ≤ frame ∨ oldframe < 0 ∨ numFrames ≤ oldframe) →
      validateEntityFrames numFrames frame oldframe = (0, 0)) := by
  unfold validateEntityFrames
  split_ifs with hc
  · exact ⟨by constructor <;> omega, fun _ => rfl⟩
  · refine ⟨by constructor <;> omega, fun hout => ?_⟩
    exact absurd hout (by omega)

/-- C10 code bug, evaluated at a failing input: R_MDRAddAnimSurfaces binds
its header reference to the modelData pointer member itself (part_001:212),
so its frame validation compares against a garbage numFrames.  With the
punned view reading 100 while the actual MDR model has 2 frames, the
entity frames (3, 1) pass validation unchanged although frame 3 is outside
the model's frame data, defeating the claimed in-range guarantee.  The IQM
site reaches its payload correctly and does deliver the guarantee: frames
(7, -1) against the 5-frame payload are reset to (0, 0). -/
theorem C10_mdr_type_pun :
    R_MDRAddAnimSurfaces_validateFrames mdrPunEx 3 1 = (3, 1) ∧
    mdrEx.numFrames = 2 ∧ ¬((3 : ℤ) < mdrEx.numFrames) ∧
    R_AddIQMSurfaces_validateFrames iqmEx5 7 (-1) = (0, 0) := by
  refine ⟨by decide, rfl, by decide, by decide⟩

/-- C3 counterexample: the joint table (parent 1, parent -1) passes the
R_LoadIQM joint validation although joint 0's parent index 1 exceeds its own
index, so the decoder does not restrict parents to earlier-or-equal
indices. -/
theorem C3_counterexample :
    checkIQMJoints 2 5 jointsEx = true ∧ ¬parentsOrderedClaim jointsEx :=
  ⟨by decide, by decide⟩

/-- C3 amended: the joint validation of R_LoadIQM accepts a joint table
exactly when every joint's parent index lies in [-1, num_joints) and its
name offset lies within num_text; no parent-before-child ordering is
enforced. -/
theorem C3_joint_range_check (numJoints : ℤ) (numText : ℕ)
    (joints : List (ℤ × ℕ)) :
    checkIQMJoints numJoints numText joints = true ↔
      ∀ j ∈ joints, -1 ≤ j.1 ∧ j.1 < numJoints ∧ j.2 < numText := by
  simp only [checkIQMJoints, List.all_eq_true, Bool.not_eq_true',
    decide_eq_false_iff_not]
  constructor <;> intro h j hj <;> have := h j hj <;> omega

/-- C9 counterexample: IQM_CheckRange accepts offset 4, count 65536, size
65536 against a 100-byte file because the 32-bit signed product wraps to 0,
although the true byte range end 4 + 2^32 is far past the file size. -/
theorem C9_counterexample :
    IQM_CheckRange 100 4 65536 65536 = false ∧
    ¬((4 : ℤ) + 65536 * 65536 ≤ (100 : ℤ)) :=
  ⟨by decide, by decide⟩

/-- C9 amended: when the mathematical product count * size and the range end
offset + count * size stay within the signed 32-bit range (so no signed
overflow occurs), IQM_CheckRange accepts a triple exactly when count and
offset are positive and the range end is within the file size. -/
theorem C9_checkRange (filesize : ℕ) (offset count size : ℤ)
    (hof1 : -2 ^ 31 ≤ offset) (hof2 : offset < 2 ^ 31)
    (hp1 : 0 ≤ count * size) (hp2 : count * size < 2 ^ 31)
    (hsum : offset + count * size < 2 ^ 31) :
    IQM_CheckRange filesize offset count size = false ↔
      (0 < count ∧ 0 < offset ∧ offset + count * size ≤ (filesize : ℤ)) := by
  obtain ⟨cs, hcs⟩ : ∃ cs, count * size = cs := ⟨_, rfl⟩
  rw [hcs] at hp1 hp2 hsum ⊢
  unfold IQM_CheckRange u32n u64n wrap32
  rw [hcs]
  rw [decide_eq_false_iff_not]
  constructor <;> intro h <;> omega

/-- C9 witness for the amended theorem: offset 8, count 3, size 4 against a
100-byte file is accepted, matching 8 + 12 <= 100. -/
theorem C9_checkRange_witness :
    IQM_CheckRange 100 8 3 4 = false ↔
      (0 < (3 : ℤ) ∧ 0 < (8 : ℤ) ∧ (8 : ℤ) + 3 * 4 ≤ ((100 : ℕ) : ℤ)) :=
  C9_checkRange 100 8 3 4 (by decide) (by decide) (by decide) (by decide)
    (by decide)

/-- C2: registering a fresh name and then registering the same name again
returns the identical handle both times, leaves the registry unchanged on
the second call, performs no file read and no decode on the second call, and
the first call decodes exactly once on success and never on failure (so a
name that failed in all formats returns 0 the second time with no further
file-read attempt). -/
theorem C2_register_twice (env : RegEnv) (st : List ModelRec) (name : String)
    (hne : st ≠ []) (hfresh : findHandle st name = none)
    (hroom : st.length < env.maxModKnown)
    (hname : name ≠ "") (hlen : name.length < env.maxQPath) :
    (RE_RegisterModel env (RE_RegisterModel env st name).2.1 name).1 =
        (RE_RegisterModel env st name).1 ∧
    (RE_RegisterModel env (RE_RegisterModel env st name).2.1 name).2.1 =
        (RE_RegisterModel env st name).2.1 ∧
    (RE_RegisterModel env (RE_RegisterModel env st name).2.1 name).2.2.1 = 0 ∧
    (RE_RegisterModel env (RE_RegisterModel env st name).2.1 name).2.2.2 = 0 ∧
    ((RE_RegisterModel env st name).1 ≠ 0 →
        (RE_RegisterModel env st name).2.2.2 = 1) ∧
    ((RE_RegisterModel env st name).1 = 0 →
        (RE_RegisterModel env st name).2.2.2 = 0) := by
  have hlen' : ¬env.maxQPath ≤ name.length := not_le.mpr hlen
  have hroom' : ¬env.maxModKnown ≤ st.length := not_le.mpr hroom
  have hr1 : RE_RegisterModel env st name =
      ((loadModelAttempt env name (st.length : ℤ)).1,
       st ++ [⟨name, (loadModelAttempt env name (st.length : ℤ)).2.1⟩],
       (loadModelAttempt env name (st.length : ℤ)).2.2.1,
       (loadModelAttempt env name (st.length : ℤ)).2.2.2) := by
    unfold RE_RegisterModel
    simp only [hfresh]
    rw [if_neg hname, if_neg hlen', if_neg hroom']
  have hpos : 1 ≤ st.length := List.length_pos.mpr hne
  have hfind2 : findHandle
      (st ++ [(⟨name, (loadModelAttempt env name (st.length : ℤ)).2.1⟩ :
        ModelRec)]) name = some st.length :=
    findHandle_append st _ name hne hfresh rfl
  have hgd : (st ++ [(⟨name, (loadModelAttempt env name (st.length : ℤ)).2.1⟩ :
      ModelRec)]).getD st.length defaultRec =
      ⟨name, (loadModelAttempt env name (st.length : ℤ)).2.1⟩ :=
    getD_append_self st _
  rw [hr1]
  rcases loadModelAttempt_spec env name (st.length : ℤ) with
    ⟨ha, hb, hc⟩ | ⟨ha, hb, hc⟩
  · have hr2 : RE_RegisterModel env
        (st ++ [(⟨name, (loadModelAttempt env name (st.length : ℤ)).2.1⟩ :
          ModelRec)]) name =
        (((st.length : ℕ) : ℤ),
         st ++ [(⟨name, (loadModelAttempt env name (st.length : ℤ)).2.1⟩ :
           ModelRec)], 0, 0) := by
      unfold RE_RegisterModel
      simp only [hfind2]
      rw [if_neg hname, if_neg hlen', hgd]
      simp only [if_neg hb]
    refine ⟨?_, ?_, ?_, ?_, fun _ => hc, ?_⟩
    · rw [hr2, ha]
    · rw [hr2]
    · rw [hr2]
    · rw [hr2]
    · intro h0
      rw [ha] at h0
      exfalso
      omega
  · have hr2 : RE_RegisterModel env
        (st ++ [(⟨name, (loadModelAttempt env name (st.length : ℤ)).2.1⟩ :
          ModelRec)]) name =
        (0,
         st ++ [(⟨name, (loadModelAttempt env name (st.length : ℤ)).2.1⟩ :
           ModelRec)], 0, 0) := by
      unfold RE_RegisterModel
      simp only [hfind2]
      rw [if_neg hname, if_neg hlen', hgd]
      simp [hb]
    refine ⟨?_, ?_, ?_, ?_, fun h0 => absurd ha h0, fun _ => hc⟩
    · rw [hr2, ha]
    · rw [hr2]
    · rw [hr2]
    · rw [hr2]

/-- C2 witness: registering mymodel twice against a file system holding only
mymodel.md3, starting from the default-model-only registry; the theorem
applies at that concrete input. -/
theorem C2_register_twice_witness :
    (RE_RegisterModel regEnvEx
        (RE_RegisterModel regEnvEx st0Ex "mymodel").2.1 "mymodel").1 =
      (RE_RegisterModel regEnvEx st0Ex "mymodel").1 ∧
    (RE_RegisterModel regEnvEx
        (RE_RegisterModel regEnvEx st0Ex "mymodel").2.1 "mymodel").2.1 =
      (RE_RegisterModel regEnvEx st0Ex "mymodel").2.1 ∧
    (RE_RegisterModel regEnvEx
        (RE_RegisterModel regEnvEx st0Ex "mymodel").2.1 "mymodel").2.2.1 = 0 ∧
    (RE_RegisterModel regEnvEx
        (RE_RegisterModel regEnvEx st0Ex "mymodel").2.1 "mymodel").2.2.2 = 0 ∧
    ((RE_RegisterModel regEnvEx st0Ex "mymodel").1 ≠ 0 →
      (RE_RegisterModel regEnvEx st0Ex "mymodel").2.2.2 = 1) ∧
    ((RE_RegisterModel regEnvEx st0Ex "mymodel").1 = 0 →
      (RE_RegisterModel regEnvEx st0Ex "mymodel").2.2.2 = 0) :=
  C2_register_twice regEnvEx st0Ex "mymodel" (by decide) (by decide)
    (by decide) (by decide) (by decide)

/-- Every surface in a surface chain the R_LoadMD3 surface walk accepts has
fewer than SHADER_MAX_VERTEXES vertices. -/
theorem loadMD3Surfs_verts (maxV maxI : ℤ) (fs : ℕ) :
    ∀ (l : List MD3Surface) (off : ℤ),
      loadMD3Surfs maxV maxI fs off l = true → ∀ s ∈ l, s.numVerts < maxV := by
  intro l
  induction l with
  | nil => intro off _ s hs; cases hs
  | cons a t ih =>
    intro off h s hs
    rw [loadMD3Surfs] at h
    split_ifs at h
    all_goals
      rcases List.mem_cons.mp hs with rfl | hs' <;>
        first
          | exact ih (off + s.ofsEnd) h s hs'
          | exact ih (off + _) h s hs'
          | omega

/-- C6: the MD3 decoder rejects any surface chain containing a surface that
declares SHADER_MAX_VERTEXES or more vertices (whenever the load succeeds,
every surface declares fewer), and it accepts a concrete model whose single
surface declares exactly SHADER_MAX_VERTEXES - 1 vertices with all other
fields valid (instantiated at a ceiling of 1000). -/
theorem C6_md3_vertex_ceiling :
    (∀ (maxV maxI : ℤ) (fileSize : ℕ) (m : MD3Header),
        R_LoadMD3 maxV maxI fileSize m = true →
          ∀ s ∈ m.surfaces, s.numVerts < maxV) ∧
    (R_LoadMD3 1000 6000 20000 md3Ex = true ∧
        ∀ s ∈ md3Ex.surfaces, s.numVerts = 1000 - 1) := by
  constructor
  · intro maxV maxI fileSize m h
    unfold R_LoadMD3 at h
    dsimp only at h
    split_ifs at h
    all_goals exact loadMD3Surfs_verts maxV maxI fileSize m.surfaces m.ofsSurfaces h
  · exact ⟨by decide, by decide⟩

/-- C6 witness: the accepted 999-vertex surface is below the 1000 ceiling;
the theorem applies at that concrete input. -/
theorem C6_md3_vertex_ceiling_witness : md3SurfEx.numVerts < 1000 :=
  C6_md3_vertex_ceiling.1 1000 6000 20000 md3Ex (by decide) md3SurfEx
    (by decide)

/-- What the lerpTag failure path actually guarantees: when the tag name is
absent from the data the scan reads -- the model's tags for MD3/MDR, but
for IQM the type-punned view passed in place of the payload -- the call
returns the cleared frame and false. -/
theorem lerpTag_scan_missing (mdl : RModel) (pun : IQMData)
    (scratch : ℕ → Mat34) (sf ef : ℤ) (frac : ℝ) (tagName : String)
    (h : tagAbsent mdl pun tagName) :
    R_LerpTag mdl pun scratch sf ef frac tagName =
      (clearedOrientation, false) := by
  cases mdl with
  | md3 m =>
    have hg : ∀ f : ℤ, R_GetTag m f tagName = none := by
      intro f
      simp only [R_GetTag, List.findSome?_eq_none_iff]
      intro i _
      rw [if_neg (h _)]
    unfold R_LerpTag
    dsimp only
    rw [hg sf, hg ef]
  | mdr m =>
    have hg : ∀ f : ℤ, R_GetAnimTag m f tagName = none := by
      intro f
      simp only [R_GetAnimTag, List.findSome?_eq_none_iff]
      intro i _
      rw [if_neg (h i)]
    unfold R_LerpTag
    dsimp only
    rw [hg sf, hg ef]
  | iqm d =>
    have hj : findJoint pun tagName = none := by
      simp only [findJoint, List.find?_eq_none]
      intro j _
      simpa using h j
    unfold R_LerpTag R_IQMLerpTag
    dsimp only
    rw [hj]
  | bad => rfl

/-- C7 code bug, evaluated at a failing input: for an IQM model the source
passes reinterpret_cast of the modelData pointer member itself
(part_000:1165), so the outcome of a lerpTag call is governed by that
garbage view and not by the model.  Asking the one-joint model (whose only
joint is named root) for the absent tag nope yields the cleared failure
frame under one garbage content but success under another whose bytes
happen to decode to a joint named nope -- the claimed cleared-frame,
report-failure, no-fault behaviour is not delivered by the code. -/
theorem C7_iqm_type_pun :
    R_LerpTag (RModel.iqm iqmEx0) punEmptyEx (fun _ => zeroMat) 0 0 (1 / 2)
        "nope" = (clearedOrientation, false) ∧
    (R_LerpTag (RModel.iqm iqmEx0) punNopeEx (fun _ => zeroMat) 0 0 (1 / 2)
        "nope").2 = true ∧
    (∀ j : ℕ, iqmEx0.jointNames j ≠ "nope") := by
  refine ⟨rfl, rfl, ?_⟩
  intro j
  show ("root" : String) ≠ "nope"
  decide

/-- C4: for a skinned-skeletal model with zero poses, ComputeJointMats
returns the bind matrices unmodified for every joint, frame pair and blend
fraction. -/
theorem C4_zero_poses_bind (data : IQMData) (frame oldframe : ℤ)
    (backlerp : ℝ) (init : ℕ → Mat34) (h : data.num_poses = 0) :
    ∀ i < data.num_joints,
      ComputeJointMats data frame oldframe backlerp init i =
        data.bindJoints i := by
  intro i hi
  simp [ComputeJointMats, h, hi]

/-- C4 witness: the one-joint zero-pose model yields its bind matrix for
joint 0 at frames 3, 5 and blend 1/4; the theorem applies at that concrete
input. -/
theorem C4_zero_poses_bind_witness :
    ComputeJointMats iqmEx0 3 5 (1 / 4) (fun _ => zeroMat) 0 =
      iqmEx0.bindJoints 0 :=
  C4_zero_poses_bind iqmEx0 3 5 (1 / 4) (fun _ => zeroMat) rfl 0 (by decide)

/-- The dot product of a quaternion with itself is a sum of squares. -/
theorem quatDot_self_nonneg (q : Quat) : 0 ≤ quatDot q q := by
  unfold quatDot
  nlinarith [mul_self_nonneg (q 0), mul_self_nonneg (q 1),
    mul_self_nonneg (q 2), mul_self_nonneg (q 3)]

/-- A quaternion with zero self-dot is the zero quaternion. -/
theorem quatDot_self_eq_zero (q : Quat) (h : quatDot q q = 0) :
    ∀ i, q i = 0 := by
  unfold quatDot at h
  have h0 := mul_self_nonneg (q 0)
  have h1 := mul_self_nonneg (q 1)
  have h2 := mul_self_nonneg (q 2)
  have h3 := mul_self_nonneg (q 3)
  have e0 : q 0 * q 0 = 0 := by nlinarith
  have e1 : q 1 * q 1 = 0 := by nlinarith
  have e2 : q 2 * q 2 = 0 := by nlinarith
  have e3 : q 3 * q 3 = 0 := by nlinarith
  intro i
  fin_cases i
  · exact mul_self_eq_zero.mp e0
  · exact mul_self_eq_zero.mp e1
  · exact mul_self_eq_zero.mp e2
  · exact mul_self_eq_zero.mp e3

/-- C5 counterexample: the self-interpolation identity fails for a
quaternion that is not near unit length: slerping (1/2, 0, 0, 0) with
itself at fraction 1/2 does not return the input (its first component
becomes 1 / (2 cos(arccos(1/4) / 2)), not 1/2), so the identity does not
hold for every quaternion. -/
theorem C5_counterexample : QuatSlerp qHalf qHalf (1 / 2) 0 ≠ qHalf 0 := by
  have hq0 : qHalf 0 = 1 / 2 := by
    simp [qHalf]
  have hdot : quatDot qHalf qHalf = 1 / 4 := by
    norm_num [quatDot, qHalf, Matrix.cons_val_zero, Matrix.cons_val_one,
      Matrix.head_cons, Matrix.cons_val_two, Matrix.tail_cons,
      Matrix.cons_val_three, Matrix.head_fin_const]
  have hn0 : ¬quatDot qHalf qHalf < 0 := by rw [hdot]; norm_num
  have hlt : quatDot qHalf qHalf < 0.999999 := by rw [hdot]; norm_num
  have hval : QuatSlerp qHalf qHalf (1 / 2) 0 =
      qHalf 0 * (Real.sin ((1 - 1 / 2) * Real.arccos (1 / 4)) /
          Real.sin (Real.arccos (1 / 4))) +
      qHalf 0 * (Real.sin (1 / 2 * Real.arccos (1 / 4)) /
          Real.sin (Real.arccos (1 / 4))) := by
    simp only [QuatSlerp]
    rw [if_neg hn0, if_pos hlt, if_neg hn0, hdot]
  set a := Real.arccos (1 / 4) with ha
  have ha0 : (0 : ℝ) < a := Real.arccos_pos.mpr (by norm_num)
  have ha2 : a < Real.pi / 2 := Real.arccos_lt_pi_div_two.mpr (by norm_num)
  have hpi := Real.pi_pos
  have hsinh : 0 < Real.sin (a / 2) :=
    Real.sin_pos_of_pos_of_lt_pi (by linarith) (by linarith)
  have hcosh : 0 < Real.cos (a / 2) :=
    Real.cos_pos_of_mem_Ioo ⟨by linarith, by linarith⟩
  have hcosh1 : Real.cos (a / 2) < 1 := by
    have h := Real.cos_lt_cos_of_nonneg_of_le_pi (le_refl 0)
      (by linarith : a / 2 ≤ Real.pi) (by linarith : (0 : ℝ) < a / 2)
    rwa [Real.cos_zero] at h
  have hsin2 : Real.sin a = 2 * Real.sin (a / 2) * Real.cos (a / 2) := by
    have h := Real.sin_two_mul (a / 2)
    rw [show 2 * (a / 2) = a by ring] at h
    exact h
  rw [hval, hq0]
  have hred : (1 : ℝ) / 2 * (Real.sin ((1 - 1 / 2) * a) / Real.sin a) +
      1 / 2 * (Real.sin (1 / 2 * a) / Real.sin a) =
      1 / (2 * Real.cos (a / 2)) := by
    rw [show (1 - 1 / 2 : ℝ) * a = a / 2 by ring,
      show (1 / 2 : ℝ) * a = a / 2 by ring, hsin2]
    field_simp
    ring
  rw [hred]
  intro hcontra
  rw [div_eq_div_iff (by positivity) (by norm_num : (2 : ℝ) ≠ 0)] at hcontra
  nlinarith

/-- C5 amended: the self-interpolation identity holds for every quaternion
whose self-dot reaches the 0.999999 linear-branch threshold (in particular
all unit quaternions), and interpolating any quaternion toward its negation
takes the shortest-path branch: QuatSlerp(q, -q, f) equals
QuatSlerp(q, q, f) exactly. -/
theorem C5_quatSlerp (q : Quat) (f : ℝ) :
    ((0.999999 : ℝ) ≤ quatDot q q → QuatSlerp q q f = q) ∧
    QuatSlerp q (fun i => -q i) f = QuatSlerp q q f := by
  have hdnn : 0 ≤ quatDot q q := quatDot_self_nonneg q
  have hR0 : ¬quatDot q q < 0 := not_lt.mpr hdnn
  constructor
  · intro h
    have h1 : ¬(if quatDot q q < 0 then -quatDot q q else quatDot q q) <
        0.999999 := by
      rw [if_neg hR0]
      exact not_lt.mpr h
    funext i
    simp only [QuatSlerp]
    rw [if_neg h1, if_neg hR0]
    ring
  · have hneg : quatDot q (fun i => -q i) = -quatDot q q := by
      simp only [quatDot]
      ring
    rcases lt_or_eq_of_le hdnn with hpos | hzero
    · have hcondL : (quatDot q (fun j => -q j) < 0) = True := by
        rw [hneg]
        exact eq_true (by linarith)
      have hcondL' : (-quatDot q q < 0) = True := eq_true (by linarith)
      have hcondR : (quatDot q q < 0) = False := eq_false hR0
      funext i
      simp only [QuatSlerp, hcondL, hcondL', hcondR, if_true, if_false, hneg,
        neg_neg]
    · have hz : ∀ j, q j = 0 := quatDot_self_eq_zero q hzero.symm
      have hd1 : quatDot q (fun j => -q j) = 0 := by
        simp [quatDot, hz 0, hz 1, hz 2, hz 3]
      have hd2 : quatDot q q = 0 := hzero.symm
      funext i
      simp only [QuatSlerp, hd1, hd2]
      norm_num [hz i]

/-- C5 witness for the amended theorem: the unit quaternion (0,0,0,1)
self-interpolates to itself at fraction 1/3; the theorem applies at that
concrete input. -/
theorem C5_quatSlerp_witness : QuatSlerp unitQuatW unitQuatW (1 / 3) =
    unitQuatW :=
  (C5_quatSlerp unitQuatW (1 / 3)).1 (by
    have : quatDot unitQuatW unitQuatW = 1 := by
      norm_num [quatDot, unitQuatW, Matrix.cons_val_zero, Matrix.cons_val_one,
        Matrix.head_cons, Matrix.cons_val_two, Matrix.tail_cons,
        Matrix.cons_val_three, Matrix.head_fin_const]
    rw [this]
    norm_num)

/-- C1 counterexample: on the two-frame MDR model, R_LerpTag at frames 0 and
1 with fraction 1/2 yields the tag origin x-component 1, while resolving the
tag at the single startFrame yields 0 and at the single endFrame yields 2 --
so the MDR tag result is interpolated between the two frame arguments, not
resolved at a single frame. -/
theorem C1_counterexample :
    (R_LerpTag (RModel.mdr mdrEx) punEmptyEx (fun _ => zeroMat) 0 1 (1 / 2)
        "tag_flash").1.origin 0 = 1 ∧
    R_GetAnimTag mdrEx 0 "tag_flash" = some tagAEx ∧
    R_GetAnimTag mdrEx 1 "tag_flash" = some tagBEx ∧
    tagAEx.origin 0 = 0 ∧ tagBEx.origin 0 = 2 := by
  have hs : R_GetAnimTag mdrEx 0 "tag_flash" = some tagAEx := rfl
  have he : R_GetAnimTag mdrEx 1 "tag_flash" = some tagBEx := rfl
  have hl : R_LerpTag (RModel.mdr mdrEx) punEmptyEx (fun _ => zeroMat) 0 1
      (1 / 2) "tag_flash" = (lerpTagBlend tagAEx tagBEx (1 / 2), true) := by
    unfold R_LerpTag
    dsimp only
    rw [hs, he]
  refine ⟨?_, hs, he, by simp [tagAEx], by simp [tagBEx]⟩
  rw [hl]
  show (lerpTagBlend tagAEx tagBEx (1 / 2)).origin 0 = 1
  simp [lerpTagBlend, tagAEx, tagBEx]

/-- C1 amended: R_GetAnimTag resolves the named bone's matrix at one single
(clamped) frame per call, but R_LerpTag for an MDR model calls it at both
startFrame and endFrame and linearly interpolates origin and axes by the
blend fraction (normalizing each blended axis), exactly as in the MD3
path. -/
theorem C1_mdr_lerpTag (m : MDRModel) (pun : IQMData)
    (scratch : ℕ → Mat34) (sf ef : ℤ)
    (frac : ℝ) (tagName : String) (s e : MD3Tag)
    (hs : R_GetAnimTag m sf tagName = some s)
    (he : R_GetAnimTag m ef tagName = some e) :
    R_LerpTag (RModel.mdr m) pun scratch sf ef frac tagName =
      (lerpTagBlend s e frac, true) := by
  unfold R_LerpTag
  dsimp only
  rw [hs, he]

/-- C1 witness for the amended theorem: on the two-frame MDR model the
result is the blend of the frame-0 and frame-1 tags; the theorem applies at
that concrete input. -/
theorem C1_mdr_lerpTag_witness :
    R_LerpTag (RModel.mdr mdrEx) punEmptyEx (fun _ => zeroMat) 0 1 (1 / 2)
        "tag_flash" = (lerpTagBlend tagAEx tagBEx (1 / 2), true) :=
  C1_mdr_lerpTag mdrEx punEmptyEx (fun _ => zeroMat) 0 1 (1 / 2) "tag_flash"
    tagAEx tagBEx rfl rfl

end Q3V
